import Mathlib

/-!
Verification of the trend-analysis, risk-management and order-execution core
of the AsterDexVolume trading system.

The Python sources are shallowly embedded: prices, quantities and monetary
values become `ℚ`; Python `deque(maxlen=n)` becomes a list truncated from the
front on append; Python dicts keyed by symbol become association lists; code
that can raise (`KeyError`, `ZeroDivisionError`) returns `Option`; the real
square root used by the volatility indicator is `Real.sqrt` of a rational
variance, with a certified decision procedure for its comparisons so that the
decision logic stays executable.

Batteries marks the arithmetic of `Rat` irreducible; it is restored here so
that concrete runs of the embedded functions can be checked by `decide`.
-/

attribute [local semireducible] Rat.ofScientific Rat.mul Rat.inv Rat.add
  Rat.sub

/-- Python `xs[-n:]`: the last `n` elements of a list (the whole list when it
is shorter than `n`). -/
def lastN (n : ℕ) (l : List ℚ) : List ℚ := l.drop (l.length - n)

/-- Consecutive differences `p[i] - p[i-1]`, as produced by the RSI loop in
`TrendAnalyzer.calculate_rsi`. -/
def diffs : List ℚ → List ℚ
  | a :: b :: rest => (b - a) :: diffs (b :: rest)
  | _ => []

/-- Consecutive simple returns `(p[i] - p[i-1]) / p[i-1]`, as produced by the
loop in `TrendAnalyzer.calculate_volatility`. -/
def stepReturns : List ℚ → List ℚ
  | a :: b :: rest => (b - a) / a :: stepReturns (b :: rest)
  | _ => []

/-- Lookup in a Python-dict-like association list. -/
def dictGet (d : List (String × ℚ)) (k : String) : Option ℚ :=
  match d with
  | [] => none
  | e :: rest => if e.1 = k then some e.2 else dictGet rest k

/-- Python `d[k] = v`: overwrite the binding if present, else append it. -/
def dictSet (d : List (String × ℚ)) (k : String) (v : ℚ) : List (String × ℚ) :=
  match d with
  | [] => [(k, v)]
  | e :: rest => if e.1 = k then (k, v) :: rest else e :: dictSet rest k v

/-- Python `del d[k]` (a no-op when the key is absent; the source guards the
deletion with an `in` check). -/
def dictDel (d : List (String × ℚ)) (k : String) : List (String × ℚ) :=
  match d with
  | [] => []
  | e :: rest => if e.1 = k then dictDel rest k else e :: dictDel rest k

/-- Python `d[k] = d.get(k, 0) + v`, used for the trader's `positions` map. -/
def dictAdd (d : List (String × ℚ)) (k : String) (v : ℚ) : List (String × ℚ) :=
  dictSet d k ((dictGet d k).getD 0 + v)

/-- State of `TrendAnalyzer` (`trend_analyzer_simple.py`): three parallel
deques with maximum length `window_size`.  The indicator caches of the source
are pure memoization (cleared on every `add_price_data`) and are therefore not
modelled; each indicator is recomputed from `price_history`. -/
structure TrendAnalyzer where
  window_size : ℕ
  short_ma : ℕ
  long_ma : ℕ
  price_history : List ℚ
  volume_history : List ℚ
  timestamp_history : List ℚ
deriving DecidableEq, Repr

/-- `TrendAnalyzer.__init__(window_size=30, short_ma=5, long_ma=20)`. -/
def initAnalyzer (window_size short_ma long_ma : ℕ) : TrendAnalyzer :=
  { window_size := window_size
    short_ma := short_ma
    long_ma := long_ma
    price_history := []
    volume_history := []
    timestamp_history := [] }

/-- `deque(maxlen=cap).append(x)`: append to the right, evicting from the left
once the capacity is exceeded. -/
def dequeAppend (cap : ℕ) (l : List ℚ) (x : ℚ) : List ℚ :=
  let l2 := l ++ [x]
  if cap < l2.length then l2.drop (l2.length - cap) else l2

/-- `TrendAnalyzer.add_price_data(price, volume)` at an explicit timestamp. -/
def add_price_data (ta : TrendAnalyzer) (price volume t : ℚ) : TrendAnalyzer :=
  { ta with
    price_history := dequeAppend ta.window_size ta.price_history price
    volume_history := dequeAppend ta.window_size ta.volume_history volume
    timestamp_history := dequeAppend ta.window_size ta.timestamp_history t }

/-- `TrendAnalyzer.calculate_moving_average(period)`: `None` (insufficient
data) when fewer than `period` samples exist, else the mean of the trailing
`period` prices. -/
def calculate_moving_average (prices : List ℚ) (period : ℕ) : Option ℚ :=
  if prices.length < period then none
  else
    let recent := lastN period prices
    some (recent.sum / (recent.length : ℚ))

/-- `TrendAnalyzer.calculate_price_momentum()`: relative one-step change of
the two most recent prices, `0` with fewer than two samples. -/
def calculate_price_momentum (prices : List ℚ) : ℚ :=
  match lastN 2 prices with
  | [prev, curr] => (curr - prev) / prev
  | _ => 0

/-- The variance computed inside `TrendAnalyzer.calculate_volatility`:
`0` with fewer than 5 samples, else the mean squared deviation of the simple
returns over the last 10 prices (the source divides by the number of returns,
then takes `math.sqrt`; the square root is split off into
`calculate_volatility` below). -/
def volatilityVariance (prices : List ℚ) : ℚ :=
  if prices.length < 5 then 0
  else
    let rs := stepReturns (lastN 10 prices)
    if rs.length = 0 then 0
    else
      let mean_return := rs.sum / (rs.length : ℚ)
      ((rs.map (fun r => (r - mean_return) ^ 2)).sum) / (rs.length : ℚ)

/-- `TrendAnalyzer.calculate_volatility()`: `math.sqrt` of the variance of
recent simple returns (and `0` in the insufficient-data branches, where the
variance is `0` and `√0 = 0`). -/
noncomputable def calculate_volatility (prices : List ℚ) : ℝ :=
  Real.sqrt ((volatilityVariance prices : ℚ) : ℝ)

/-- The volatility comparisons performed by the source (`volatility > 0.02`,
`volatility > 0.05`) are decidable: `√v > c` iff `c < 0` or `c² < v`. -/
instance instDecidableVolGt (p : List ℚ) (c : ℚ) :
    Decidable (calculate_volatility p > ((c : ℚ) : ℝ)) :=
  decidable_of_iff (c < 0 ∨ c ^ 2 < volatilityVariance p) (by
    simp only [calculate_volatility, gt_iff_lt]
    constructor
    · rintro (hc | hlt)
      · have h0 : ((c : ℚ) : ℝ) < 0 := by exact_mod_cast hc
        exact lt_of_lt_of_le h0 (Real.sqrt_nonneg _)
      · have h2 : ((c : ℚ) : ℝ) ^ 2 < ((volatilityVariance p : ℚ) : ℝ) := by
          exact_mod_cast hlt
        exact Real.lt_sqrt_of_sq_lt h2
    · intro h
      rcases lt_or_le c 0 with hc | hc
      · exact Or.inl hc
      · right
        have hcr : (0 : ℝ) ≤ ((c : ℚ) : ℝ) := by exact_mod_cast hc
        have h2 := (Real.lt_sqrt hcr).mp h
        exact_mod_cast h2)

/-- `TrendAnalyzer.calculate_rsi(period=14)`: 50 with insufficient history,
100 when the average loss is zero, else `100 - 100/(1+RS)`. -/
def calculate_rsi (prices : List ℚ) (period : ℕ) : ℚ :=
  if prices.length < period + 1 then 50
  else
    let ps := lastN (period + 1) prices
    let changes := diffs ps
    let gains := changes.map (fun c => if c > 0 then c else 0)
    let losses := changes.map (fun c => if c > 0 then 0 else -c)
    if gains = [] ∨ losses = [] then 50
    else
      let avg_gain := gains.sum / (gains.length : ℚ)
      let avg_loss := losses.sum / (losses.length : ℚ)
      if avg_loss = 0 then 100
      else
        let rs := avg_gain / avg_loss
        100 - 100 / (1 + rs)

/-- `TrendAnalyzer.get_trend_signal()`: direction and clamped strength. -/
def get_trend_signal (ta : TrendAnalyzer) : String × ℚ :=
  if ta.price_history.length < ta.long_ma then ("NEUTRAL", 0)
  else
    match calculate_moving_average ta.price_history ta.short_ma,
        calculate_moving_average ta.price_history ta.long_ma with
    | some short_ma, some long_ma =>
      let ma_diff := (short_ma - long_ma) / long_ma
      let momentum := calculate_price_momentum ta.price_history
      let strength0 := |ma_diff| + |momentum| * (1 / 2)
      let strength :=
        if calculate_volatility ta.price_history > ((2 / 100 : ℚ) : ℝ) then
          strength0 * (7 / 10)
        else strength0
      if ma_diff > 1 / 1000 ∧ momentum > 0 then ("BULLISH", min strength 1)
      else if ma_diff < -(1 / 1000) ∧ momentum < 0 then
        ("BEARISH", min strength 1)
      else ("NEUTRAL", min strength 1)
    | _, _ => ("NEUTRAL", 0)

/-- `TrendAnalyzer.get_position_direction()`. -/
def get_position_direction (ta : TrendAnalyzer) : String :=
  let sig := get_trend_signal ta
  if sig.2 < 1 / 5 then "NEUTRAL"
  else if sig.1 = "BULLISH" then "LONG"
  else if sig.1 = "BEARISH" then "SHORT"
  else "NEUTRAL"

/-- Mutable state of `TrendBasedTradeDecision`: the timestamp of the last
trend-following decision and the configured cooldown (5 seconds). -/
structure TrendBasedTradeDecision where
  last_decision_time : ℚ
  decision_cooldown : ℚ
deriving DecidableEq, Repr

/-- `TrendBasedTradeDecision.__init__`. -/
def initDecision : TrendBasedTradeDecision :=
  { last_decision_time := 0, decision_cooldown := 5 }

/-- `TrendBasedTradeDecision.get_optimal_trade_direction(current_price,
market_data)` called at time `t` (the source reads `time.time()`); returns
`((direction, reason), new state)`.  The `current_price` argument is accepted
and ignored exactly as in the source; `market_data` is likewise unused and
omitted.  Only the two trend-following branches write `last_decision_time`. -/
def get_optimal_trade_direction (ta : TrendAnalyzer)
    (d : TrendBasedTradeDecision) (current_price t : ℚ) :
    (String × String) × TrendBasedTradeDecision :=
  if t - d.last_decision_time < d.decision_cooldown then
    (("NEUTRAL", "决策冷却中"), d)
  else
    let sig := get_trend_signal ta
    let position_direction := get_position_direction ta
    let rsi := calculate_rsi ta.price_history 14
    let momentum := calculate_price_momentum ta.price_history
    if sig.2 < 1 / 10 then (("NEUTRAL", "趋势信号太弱"), d)
    else if calculate_volatility ta.price_history > ((5 / 100 : ℚ) : ℝ) then
      (("NEUTRAL", "市场波动过大"), d)
    else if rsi > 80 then
      if position_direction = "LONG" then (("NEUTRAL", "RSI过买，避免做多"), d)
      else (("SHORT", "RSI过买，建议做空"), d)
    else if rsi < 20 then
      if position_direction = "SHORT" then (("NEUTRAL", "RSI过卖，避免做空"), d)
      else (("LONG", "RSI过卖，建议做多"), d)
    else if sig.1 = "BULLISH" ∧ momentum > 1 / 1000 then
      (("LONG", "看涨趋势"), { d with last_decision_time := t })
    else if sig.1 = "BEARISH" ∧ momentum < -(1 / 1000) then
      (("SHORT", "看跌趋势"), { d with last_decision_time := t })
    else (("NEUTRAL", "无明确趋势信号"), d)

/-- `TrendBasedTradeDecision.calculate_position_size(account_balance,
risk_ratio=0.02)`. -/
def calculate_position_size (account_balance risk_ratio : ℚ) : ℚ :=
  let risk_amount := account_balance * risk_ratio
  let stop_loss_ratio : ℚ := 2 / 100
  let max_position := risk_amount / stop_loss_ratio
  min max_position (account_balance * (1 / 10))

/-- Risk-limit constant `TRADING_CONFIG["MAX_DAILY_LOSS"]` (config.py). -/
def MAX_DAILY_LOSS : ℚ := 100

/-- Risk-limit constant `TRADING_CONFIG["MAX_CONSECUTIVE_LOSSES"]`. -/
def MAX_CONSECUTIVE_LOSSES : ℕ := 700

/-- State of `RiskManager` (`enhanced_volume_trader.py`).  The two per-symbol
dicts `position_peak_value` and `position_entry_value` are association lists;
dates are abstract day numbers.  The statistics object the manager reads
(`daily_pnl`, `consecutive_losses`) is passed to `check_risk_limits` as
arguments. -/
structure RiskManager where
  emergency_stop : Bool
  daily_loss : ℚ
  last_reset_date : ℕ
  position_peak_value : List (String × ℚ)
  position_entry_value : List (String × ℚ)
  max_drawdown_percent : ℚ
  drawdown_warning_threshold : ℚ
  force_close_enabled : Bool
  position_monitoring_enabled : Bool
deriving DecidableEq, Repr

/-- `RiskManager.__init__` with the configured drawdown parameters. -/
def initRiskManager (d0 : ℕ) (maxdd warn : ℚ) (force : Bool) : RiskManager :=
  { emergency_stop := false
    daily_loss := 0
    last_reset_date := d0
    position_peak_value := []
    position_entry_value := []
    max_drawdown_percent := maxdd
    drawdown_warning_threshold := warn
    force_close_enabled := force
    position_monitoring_enabled := true }

/-- `RiskManager.update_position_value(symbol, current_price, position_size)`.
Returns `none` where the source would raise: a `KeyError` when the symbol is
tracked in `position_entry_value` but missing from `position_peak_value`, or a
`ZeroDivisionError` when the drawdown divides by a zero peak value.  Otherwise
returns the source's boolean (`false` = force-liquidate) and the new state. -/
def update_position_value (rm : RiskManager) (symbol : String)
    (current_price position_size : ℚ) : Option (Bool × RiskManager) :=
  if |position_size| < 1 / 10000 then
    some (true, { rm with
      position_peak_value := dictDel rm.position_peak_value symbol
      position_entry_value := dictDel rm.position_entry_value symbol })
  else
    let current_value := |position_size * current_price|
    match dictGet rm.position_entry_value symbol with
    | none =>
      some (true, { rm with
        position_entry_value := dictSet rm.position_entry_value symbol
          current_value
        position_peak_value := dictSet rm.position_peak_value symbol
          current_value })
    | some _ =>
      match dictGet rm.position_peak_value symbol with
      | none => none
      | some pk =>
        let peak_value := if current_value > pk then current_value else pk
        let rm2 := { rm with
          position_peak_value := dictSet rm.position_peak_value symbol
            peak_value }
        if peak_value = 0 then none
        else
          let drawdown := (peak_value - current_value) / peak_value
          if drawdown > rm.max_drawdown_percent then
            if rm.force_close_enabled then some (false, rm2)
            else some (true, rm2)
          else some (true, rm2)

/-- `RiskManager.check_risk_limits()` reading `stats.daily_pnl` and
`stats.consecutive_losses`, called on day `today`. -/
def check_risk_limits (rm : RiskManager) (daily_pnl : ℚ)
    (consecutive_losses : ℕ) (today : ℕ) : Bool × RiskManager :=
  let rm1 :=
    if today > rm.last_reset_date then
      { rm with daily_loss := 0, last_reset_date := today }
    else rm
  if |daily_pnl| > MAX_DAILY_LOSS then
    (false, { rm1 with emergency_stop := true })
  else if consecutive_losses ≥ MAX_CONSECUTIVE_LOSSES then
    (false, { rm1 with emergency_stop := true })
  else (true, rm1)

/-- States reachable from a fresh `RiskManager` by any sequence of
non-raising `update_position_value` calls. -/
inductive ReachableRisk : RiskManager → Prop where
  | init (d0 : ℕ) (maxdd warn : ℚ) (force : Bool) :
      ReachableRisk (initRiskManager d0 maxdd warn force)
  | step (rm : RiskManager) (symbol : String) (price size : ℚ) (b : Bool)
      (rm' : RiskManager) (h : ReachableRisk rm)
      (hs : update_position_value rm symbol price size = some (b, rm')) :
      ReachableRisk rm'

/-- One poll of `wait_for_order_fill`: the status-query either raises
(`err`, the loop breaks and the wait fails), returns a falsy payload
(`noStatus`, the loop keeps polling), or reports an order status string. -/
inductive PollResult where
  | err : PollResult
  | noStatus : PollResult
  | status (s : String) : PollResult
deriving DecidableEq, Repr

/-- `EnhancedVolumeTrader.wait_for_order_fill(symbol, order_id,
max_wait_time)`: the finite poll list stands for the bounded sequence of
100 ms status checks within the wait budget; an exhausted list is the timeout
and yields `false`. -/
def wait_for_order_fill : List PollResult → Bool
  | [] => false
  | PollResult.err :: _ => false
  | PollResult.noStatus :: rest => wait_for_order_fill rest
  | PollResult.status s :: rest =>
    if s = "FILLED" then true
    else if s = "CANCELED" ∨ s = "REJECTED" ∨ s = "EXPIRED" then false
    else wait_for_order_fill rest

/-- Configured limit-order offset `STRATEGY_CONFIG["LIMIT_ORDER"]
["BUY_PRICE_OFFSET"]`. -/
def BUY_PRICE_OFFSET : ℚ := 1 / 10000

/-- Configured limit-order offset `STRATEGY_CONFIG["LIMIT_ORDER"]
["SELL_PRICE_OFFSET"]`. -/
def SELL_PRICE_OFFSET : ℚ := 1 / 10000

/-- Python `round(x, 8)` on the exact rational value. -/
def round8 (x : ℚ) : ℚ := (round (x * 10 ^ 8) : ℤ) / 10 ^ 8

/-- The exchange's observable behaviour during one long trade cycle: order
placements either fail (`none`: falsy result, missing `orderId`, or a raised
transport error caught by the enclosing handler) or yield an order id; each
wait is a poll sequence; the exit-leg cancel and the fallback market order
may themselves fail. -/
structure ExchangeEnv where
  buy_order : Option ℕ
  buy_polls : List PollResult
  sell_order : Option ℕ
  sell_polls : List PollResult
  cancel_sell_ok : Bool
  market_sell_ok : Bool
deriving DecidableEq, Repr

/-- `EnhancedVolumeTrader.execute_long_strategy(symbol, bid, ask,
spread_data)` against exchange behaviour `env`, with the trader's
`positions` dict threaded through.  Returns
`((success, is_maker, estimated_fee), positions)`.  The entry-leg cancel
after a timeout is wrapped in `try/except: pass` in the source and has no
effect on the returned outcome, so it is not represented. -/
def execute_long_strategy (positions : List (String × ℚ)) (symbol : String)
    (bid ask trade_quantity : ℚ) (env : ExchangeEnv) :
    (Bool × Bool × ℚ) × List (String × ℚ) :=
  let buy_price := round8 (bid * (1 + BUY_PRICE_OFFSET * (3 / 10)))
  let sell_price := round8 (ask * (1 + SELL_PRICE_OFFSET * 2))
  match env.buy_order with
  | none => ((false, false, 0), positions)
  | some _ =>
    if wait_for_order_fill env.buy_polls = false then
      ((false, false, 0), positions)
    else
      match env.sell_order with
      | none => ((false, false, 0), dictAdd positions symbol trade_quantity)
      | some _ =>
        if wait_for_order_fill env.sell_polls = true then
          ((true, true,
            trade_quantity * (buy_price + sell_price) * (2 / 10000) * (8 / 10)),
            positions)
        else if env.cancel_sell_ok ∧ env.market_sell_ok then
          ((true, false, trade_quantity * buy_price * (3 / 10000)), positions)
        else ((false, false, 0), dictAdd positions symbol trade_quantity)

/-- The mean of a list of rationals, for the statistics the specification
describes. -/
def listMean (l : List ℚ) : ℚ := l.sum / (l.length : ℚ)

/-- Population variance (mean squared deviation, dividing by `n`). -/
def popVariance (l : List ℚ) : ℚ :=
  (l.map (fun x => (x - listMean l) ^ 2)).sum / (l.length : ℚ)

/-- Population standard deviation. -/
noncomputable def popStdDev (l : List ℚ) : ℝ :=
  Real.sqrt ((popVariance l : ℚ) : ℝ)

/-- Bessel-corrected sample variance (dividing by `n - 1`), the usual meaning
of "sample standard deviation" squared. -/
def sampleVariance (l : List ℚ) : ℚ :=
  (l.map (fun x => (x - listMean l) ^ 2)).sum / ((l.length : ℚ) - 1)

/-- Sample standard deviation (Bessel-corrected). -/
noncomputable def sampleStdDev (l : List ℚ) : ℝ :=
  Real.sqrt ((sampleVariance l : ℚ) : ℝ)

/-- A 20-tick price history: ten flat ticks at 1000 followed by a steady rise
of 30 per tick.  Every recent change is a gain, so RSI = 100, while the final
momentum is positive but the signal strength stays below 0.2. -/
def risingHistory : List ℚ :=
  [1000, 1000, 1000, 1000, 1000, 1000, 1000, 1000, 1000, 1000,
   1030, 1060, 1090, 1120, 1150, 1180, 1210, 1240, 1270, 1300]

/-- Analyzer state holding `risingHistory` (default 30/5/20 configuration). -/
def taOverbought : TrendAnalyzer :=
  { window_size := 30
    short_ma := 5
    long_ma := 20
    price_history := risingHistory
    volume_history := []
    timestamp_history := [] }

/-- A 20-tick price history: ten flat ticks at 1000 followed by an up-trend
with alternating pullbacks (net +60 per two ticks), giving RSI = 80, a
BULLISH signal and strength above 0.1. -/
def trendingHistory : List ℚ :=
  [1000, 1000, 1000, 1000, 1000, 1000, 1000, 1000, 1000, 1000,
   980, 1060, 1040, 1120, 1100, 1180, 1160, 1240, 1220, 1300]

/-- Analyzer state holding `trendingHistory`. -/
def taBullish : TrendAnalyzer :=
  { window_size := 30
    short_ma := 5
    long_ma := 20
    price_history := trendingHistory
    volume_history := []
    timestamp_history := [] }

/-- A risk manager tracking one position with entry and peak value 1000 USDT
under a 5% drawdown limit with forced close enabled. -/
def rmTracked : RiskManager :=
  { emergency_stop := false
    daily_loss := 0
    last_reset_date := 0
    position_peak_value := [("BTCUSDT", 1000)]
    position_entry_value := [("BTCUSDT", 1000)]
    max_drawdown_percent := 1 / 20
    drawdown_warning_threshold := 1 / 25
    force_close_enabled := true
    position_monitoring_enabled := true }

/-- The risk-manager state reached from a fresh manager (2% drawdown limit,
forced close enabled) after one `update_position_value` call that opens
tracking for BTCUSDT at value 1000 USDT. -/
def rmOpened : RiskManager :=
  { emergency_stop := false
    daily_loss := 0
    last_reset_date := 0
    position_peak_value := [("BTCUSDT", 1000)]
    position_entry_value := [("BTCUSDT", 1000)]
    max_drawdown_percent := 1 / 50
    drawdown_warning_threshold := 2 / 125
    force_close_enabled := true
    position_monitoring_enabled := true }

/-- Exchange behaviour: entry leg fills, exit limit leg never fills within its
budget, the cancel succeeds but the fallback market order is rejected. -/
def envFallbackFails : ExchangeEnv :=
  { buy_order := some 1
    buy_polls := [PollResult.status "FILLED"]
    sell_order := some 2
    sell_polls := [PollResult.status "NEW", PollResult.noStatus]
    cancel_sell_ok := true
    market_sell_ok := false }

/-- Exchange behaviour: entry leg fills, exit limit leg times out, and the
cancel plus fallback market order both succeed. -/
def envFallbackOk : ExchangeEnv :=
  { buy_order := some 1
    buy_polls := [PollResult.status "FILLED"]
    sell_order := some 2
    sell_polls := [PollResult.status "NEW", PollResult.noStatus]
    cancel_sell_ok := true
    market_sell_ok := true }

/-- Exchange behaviour: both legs fill as limit orders. -/
def envBothFill : ExchangeEnv :=
  { buy_order := some 1
    buy_polls := [PollResult.noStatus, PollResult.status "FILLED"]
    sell_order := some 2
    sell_polls := [PollResult.status "NEW", PollResult.status "FILLED"]
    cancel_sell_ok := true
    market_sell_ok := true }

/-- C10: with the default risk ratio 0.02, `calculate_position_size` returns
exactly `min (balance * riskRatio / 0.02) (balance * 0.1)`, and in particular
never exceeds 10% of the account balance. -/
theorem c10_position_size_spec (balance : ℚ) (h : 0 ≤ balance) :
    calculate_position_size balance (2 / 100) =
      min (balance * (2 / 100) / (2 / 100)) (balance * (1 / 10)) ∧
    calculate_position_size balance (2 / 100) ≤ balance * (1 / 10) :=
  ⟨rfl, min_le_right _ _⟩

/-- Witness for C10 at balance 100 USDT: the suggested size is 10 USDT. -/
theorem c10_position_size_witness :
    (0 : ℚ) ≤ 100 ∧
    (calculate_position_size 100 (2 / 100) =
        min ((100 : ℚ) * (2 / 100) / (2 / 100)) (100 * (1 / 10)) ∧
      calculate_position_size 100 (2 / 100) ≤ 100 * (1 / 10)) :=
  ⟨by norm_num, c10_position_size_spec 100 (by norm_num)⟩

/-- C7: `check_risk_limits` returns `false` and sets `emergency_stop` exactly
when `|daily_pnl| > MAX_DAILY_LOSS` or
`consecutive_losses ≥ MAX_CONSECUTIVE_LOSSES`; otherwise it returns `true`
and leaves `emergency_stop` unchanged. -/
theorem c7_check_risk_limits_spec (rm : RiskManager) (daily_pnl : ℚ)
    (consecutive_losses : ℕ) (today : ℕ) :
    ((check_risk_limits rm daily_pnl consecutive_losses today).1 = false ↔
      |daily_pnl| > MAX_DAILY_LOSS ∨
        consecutive_losses ≥ MAX_CONSECUTIVE_LOSSES) ∧
    ((check_risk_limits rm daily_pnl consecutive_losses today).1 = false →
      (check_risk_limits rm daily_pnl consecutive_losses today).2.emergency_stop
        = true) ∧
    ((check_risk_limits rm daily_pnl consecutive_losses today).1 = true →
      (check_risk_limits rm daily_pnl consecutive_losses today).2.emergency_stop
        = rm.emergency_stop) := by
  simp only [check_risk_limits]
  split_ifs with h1 h2 h3 h2 h3 <;> simp_all

/-- Witness for C7: `daily_pnl = -105` with `MAX_DAILY_LOSS = 100` makes
`check_risk_limits` fail and set the emergency stop. -/
theorem c7_check_risk_limits_witness :
    (check_risk_limits (initRiskManager 0 (1 / 50) (2 / 125) true)
        (-105) 0 0).1 = false ∧
    (check_risk_limits (initRiskManager 0 (1 / 50) (2 / 125) true)
        (-105) 0 0).2.emergency_stop = true := by
  have h := c7_check_risk_limits_spec (initRiskManager 0 (1 / 50) (2 / 125)
    true) (-105) 0 0
  have hb := h.1.mpr (Or.inl (by norm_num [MAX_DAILY_LOSS]))
  exact ⟨hb, h.2.1 hb⟩

/-- Looking a key up after setting it returns the stored value. -/
theorem dictGet_set_self (d : List (String × ℚ)) (k : String) (v : ℚ) :
    dictGet (dictSet d k v) k = some v := by
  induction d with
  | nil => simp [dictSet, dictGet]
  | cons e rest ih =>
    by_cases h : e.1 = k
    · simp [dictSet, dictGet, h]
    · simp [dictSet, dictGet, h, ih]

/-- Setting one key leaves the others unchanged. -/
theorem dictGet_set_other (d : List (String × ℚ)) (k k2 : String) (v : ℚ)
    (h : k2 ≠ k) : dictGet (dictSet d k v) k2 = dictGet d k2 := by
  have hk : ¬ (k = k2) := Ne.symm h
  induction d with
  | nil => simp [dictSet, dictGet, hk]
  | cons e rest ih =>
    by_cases he : e.1 = k
    · have he2 : ¬ e.1 = k2 := by rw [he]; exact hk
      simp [dictSet, dictGet, he, he2, hk]
    · by_cases he2 : e.1 = k2 <;> simp [dictSet, dictGet, he, he2, ih, h, hk]

/-- A deleted key is absent. -/
theorem dictGet_del_self (d : List (String × ℚ)) (k : String) :
    dictGet (dictDel d k) k = none := by
  induction d with
  | nil => simp [dictDel, dictGet]
  | cons e rest ih =>
    by_cases h : e.1 = k <;> simp [dictDel, dictGet, h, ih]

/-- Deleting one key leaves the others unchanged. -/
theorem dictGet_del_other (d : List (String × ℚ)) (k k2 : String)
    (h : k2 ≠ k) : dictGet (dictDel d k) k2 = dictGet d k2 := by
  have hk : ¬ (k = k2) := Ne.symm h
  induction d with
  | nil => simp [dictDel]
  | cons e rest ih =>
    by_cases he : e.1 = k
    · have he2 : ¬ e.1 = k2 := by rw [he]; exact hk
      simp [dictDel, dictGet, he, ih, he2, hk]
    · by_cases he2 : e.1 = k2 <;> simp [dictDel, dictGet, he, he2, ih, h, hk]

/-- C3: for a tracked, non-flat position (with a positive recorded peak),
`update_position_value` stores a peak that is never below the previous one,
and returns `false` exactly when the drawdown computed from the updated peak
strictly exceeds `max_drawdown_percent` while forced close is enabled. -/
theorem c3_update_position_value_spec (rm : RiskManager) (symbol : String)
    (price size e pk : ℚ)
    (hflat : ¬ |size| < 1 / 10000)
    (he : dictGet rm.position_entry_value symbol = some e)
    (hpk : dictGet rm.position_peak_value symbol = some pk)
    (hpos : 0 < pk) :
    update_position_value rm symbol price size =
      some
        (if ((if |size * price| > pk then |size * price| else pk)
                - |size * price|) /
              (if |size * price| > pk then |size * price| else pk) >
              rm.max_drawdown_percent ∧ rm.force_close_enabled = true
          then false else true,
         { rm with
            position_peak_value :=
              dictSet rm.position_peak_value symbol
                (if |size * price| > pk then |size * price| else pk) }) ∧
    pk ≤ (if |size * price| > pk then |size * price| else pk) := by
  have hpv : 0 < (if |size * price| > pk then |size * price| else pk) := by
    split_ifs with hgt
    · exact lt_trans hpos hgt
    · exact hpos
  have hpv0 : ¬ (if |size * price| > pk then |size * price| else pk) = 0 :=
    ne_of_gt hpv
  constructor
  · simp only [update_position_value, if_neg hflat, he, hpk]
    rw [if_neg hpv0]
    by_cases hA : ((if |size * price| > pk then |size * price|
          else pk) - |size * price|) /
        (if |size * price| > pk then |size * price| else pk) >
        rm.max_drawdown_percent
    · by_cases hB : rm.force_close_enabled = true
      · rw [if_pos hA, if_pos hB, if_pos (And.intro hA hB)]
      · rw [if_pos hA, if_neg hB, if_neg (not_and_of_not_right _ hB)]
    · rw [if_neg hA, if_neg (not_and_of_not_left _ hA)]
  · split_ifs with hgt
    · exact le_of_lt hgt
    · exact le_refl pk

/-- Witness for C3: peak 1000 USDT, current value 940 USDT, 5% drawdown
limit, forced close enabled — the drawdown is 6% and the call returns
`false`, signalling forced liquidation. -/
theorem c3_update_position_value_witness :
    (¬ |(1 / 10 : ℚ)| < 1 / 10000) ∧
    dictGet rmTracked.position_entry_value "BTCUSDT" = some 1000 ∧
    dictGet rmTracked.position_peak_value "BTCUSDT" = some 1000 ∧
    update_position_value rmTracked "BTCUSDT" 9400 (1 / 10) =
      some (false, rmTracked) := by
  have h := c3_update_position_value_spec rmTracked "BTCUSDT" 9400 (1 / 10)
    1000 1000 (by decide) (by decide) (by decide) (by norm_num)
  refine ⟨by decide, by decide, by decide, h.1.trans ?_⟩
  decide

/-- A successful wait means some poll within the budget reported FILLED. -/
theorem wait_fill_mem (ps : List PollResult)
    (h : wait_for_order_fill ps = true) : PollResult.status "FILLED" ∈ ps := by
  induction ps with
  | nil => simp [wait_for_order_fill] at h
  | cons head tail ih =>
    cases head with
    | err => simp [wait_for_order_fill] at h
    | noStatus =>
      simp only [wait_for_order_fill] at h
      exact List.mem_cons_of_mem _ (ih h)
    | status s =>
      by_cases hf : s = "FILLED"
      · rw [hf]
        exact List.mem_cons_self _ _
      · simp only [wait_for_order_fill, if_neg hf] at h
        by_cases ht : s = "CANCELED" ∨ s = "REJECTED" ∨ s = "EXPIRED"
        · rw [if_pos ht] at h
          cases h
        · rw [if_neg ht] at h
          exact List.mem_cons_of_mem _ (ih h)

/-- C8: a long trade cycle reports success only if the entry leg reached
FILLED and the exit leg either reached FILLED or was flattened by the
cancel-plus-market fallback; it reports maker only if both legs filled as
limit orders (so the fallback path was never taken). -/
theorem c8_cycle_success_requires_fills (positions : List (String × ℚ))
    (symbol : String) (bid ask qty : ℚ) (env : ExchangeEnv) :
    ((execute_long_strategy positions symbol bid ask qty env).1.1 = true →
      PollResult.status "FILLED" ∈ env.buy_polls ∧
        (PollResult.status "FILLED" ∈ env.sell_polls ∨
          (env.cancel_sell_ok = true ∧ env.market_sell_ok = true))) ∧
    ((execute_long_strategy positions symbol bid ask qty env).1.2.1 = true →
      PollResult.status "FILLED" ∈ env.buy_polls ∧
        PollResult.status "FILLED" ∈ env.sell_polls) := by
  cases hb : env.buy_order with
  | none =>
    simp [execute_long_strategy, hb]
  | some oid =>
    by_cases hbw : wait_for_order_fill env.buy_polls = false
    · simp [execute_long_strategy, hb, hbw]
    · have hbt : wait_for_order_fill env.buy_polls = true :=
        eq_true_of_ne_false hbw
      cases hs : env.sell_order with
      | none =>
        simp [execute_long_strategy, hb, hbw, hs]
      | some oid2 =>
        by_cases hsw : wait_for_order_fill env.sell_polls = true
        · constructor
          · intro _
            exact ⟨wait_fill_mem _ hbt, Or.inl (wait_fill_mem _ hsw)⟩
          · intro _
            exact ⟨wait_fill_mem _ hbt, wait_fill_mem _ hsw⟩
        · by_cases hcm : env.cancel_sell_ok = true ∧ env.market_sell_ok = true
          · constructor
            · intro _
              exact ⟨wait_fill_mem _ hbt, Or.inr hcm⟩
            · intro hmk
              exfalso
              revert hmk
              simp [execute_long_strategy, hb, hbw, hs, hsw, hcm]
          · constructor
            · intro hsucc
              exfalso
              revert hsucc
              simp [execute_long_strategy, hb, hbw, hs, hsw, hcm]
            · intro hmk
              exfalso
              revert hmk
              simp [execute_long_strategy, hb, hbw, hs, hsw, hcm]

/-- Witness for C8: with both legs filling as limit orders the cycle is a
maker success and both poll sequences contain FILLED. -/
theorem c8_cycle_success_witness :
    (execute_long_strategy [] "BTCUSDT" 100 100 (1 / 100) envBothFill).1.1
      = true ∧
    PollResult.status "FILLED" ∈ envBothFill.buy_polls ∧
    (PollResult.status "FILLED" ∈ envBothFill.sell_polls ∨
      (envBothFill.cancel_sell_ok = true ∧ envBothFill.market_sell_ok = true)) ∧
    PollResult.status "FILLED" ∈ envBothFill.sell_polls := by
  have h := c8_cycle_success_requires_fills [] "BTCUSDT" 100 100 (1 / 100)
    envBothFill
  have hs : (execute_long_strategy [] "BTCUSDT" 100 100 (1 / 100)
      envBothFill).1.1 = true := by decide
  have hm : (execute_long_strategy [] "BTCUSDT" 100 100 (1 / 100)
      envBothFill).1.2.1 = true := by decide
  exact ⟨hs, (h.1 hs).1, (h.1 hs).2, (h.2 hm).2⟩

/-- C9 counterexample: entry fills at price 100, the exit limit order never
fills within its budget, the cancel succeeds, but the fallback market order
is rejected — the cycle is recorded as a failure `(false, false, 0)` (with
the leftover long position added to the positions map), not as
`success = true`. -/
theorem c9_fallback_counterexample :
    execute_long_strategy [] "BTCUSDT" 100 100 (1 / 100) envFallbackFails =
      ((false, false, 0), [("BTCUSDT", 1 / 100)]) := by
  decide

/-- C9 amended: when the entry leg fills and the exit limit order times out,
the outcome is `success = true, is_maker = false` with the blended-rate fee
estimate provided the cancel succeeds and the fallback market order is
accepted; if either fallback step fails, the cycle is recorded as a
failure. -/
theorem c9_fallback_amended (positions : List (String × ℚ))
    (symbol : String) (bid ask qty : ℚ) (env : ExchangeEnv) (oid oid2 : ℕ)
    (hb : env.buy_order = some oid)
    (hbf : wait_for_order_fill env.buy_polls = true)
    (hs : env.sell_order = some oid2)
    (hsf : wait_for_order_fill env.sell_polls = false) :
    (env.cancel_sell_ok = true ∧ env.market_sell_ok = true →
      (execute_long_strategy positions symbol bid ask qty env).1 =
        (true, false,
          qty * round8 (bid * (1 + BUY_PRICE_OFFSET * (3 / 10))) *
            (3 / 10000))) ∧
    (¬ (env.cancel_sell_ok = true ∧ env.market_sell_ok = true) →
      (execute_long_strategy positions symbol bid ask qty env).1.1
        = false) := by
  have hbw : ¬ wait_for_order_fill env.buy_polls = false := by
    rw [hbf]; simp
  have hsw : ¬ wait_for_order_fill env.sell_polls = true := by
    rw [hsf]; simp
  constructor
  · intro hcm
    simp [execute_long_strategy, hb, hbw, hs, hsw, hcm]
  · intro hcm
    simp [execute_long_strategy, hb, hbw, hs, hsw, hcm]

/-- Witness for C9: the same timeout scenario with the fallback accepted is
recorded as a taker success with the 0.03% blended fee on the entry price. -/
theorem c9_fallback_witness :
    envFallbackOk.buy_order = some 1 ∧
    wait_for_order_fill envFallbackOk.buy_polls = true ∧
    envFallbackOk.sell_order = some 2 ∧
    wait_for_order_fill envFallbackOk.sell_polls = false ∧
    (execute_long_strategy [] "BTCUSDT" 100 100 (1 / 100) envFallbackOk).1 =
      (true, false,
        (1 / 100) * round8 (100 * (1 + BUY_PRICE_OFFSET * (3 / 10))) *
          (3 / 10000)) :=
  ⟨by decide, by decide, by decide, by decide,
    (c9_fallback_amended [] "BTCUSDT" 100 100 (1 / 100) envFallbackOk 1 2
      (by decide) (by decide) (by decide) (by decide)).1 (by decide)⟩

/-- Any call that lands inside the cooldown window of the stored
`last_decision_time` returns NEUTRAL. -/
theorem cooldown_returns_neutral (ta : TrendAnalyzer)
    (d : TrendBasedTradeDecision) (p t : ℚ)
    (h : t - d.last_decision_time < d.decision_cooldown) :
    (get_optimal_trade_direction ta d p t).1.1 = "NEUTRAL" := by
  simp only [get_optimal_trade_direction, if_pos h]

/-- C1 counterexample: on `taOverbought` the overbought-RSI branch returns
SHORT without writing `last_decision_time`, so a second call one second
later (well inside the 5-second window) returns SHORT again. -/
theorem c1_cooldown_counterexample :
    (get_optimal_trade_direction taOverbought initDecision 1300 10).1.1
      = "SHORT" ∧
    ((11 : ℚ) - 10 < 5) ∧
    (get_optimal_trade_direction taOverbought
      (get_optimal_trade_direction taOverbought initDecision 1300 10).2
      1300 11).1.1 = "SHORT" := by
  refine ⟨by decide, by norm_num, by decide⟩

/-- C1 amended: a non-NEUTRAL decision that wrote `last_decision_time`
(the two trend-following branches are the only writers) starts a cooldown:
every call strictly within `decision_cooldown` seconds of it returns
NEUTRAL.  RSI-branch decisions do not write the timer and are not covered. -/
theorem c1_cooldown_amended (ta ta2 : TrendAnalyzer)
    (d : TrendBasedTradeDecision) (p p2 t t2 : ℚ)
    (hdir : (get_optimal_trade_direction ta d p t).1.1 ≠ "NEUTRAL")
    (hset : (get_optimal_trade_direction ta d p t).2.last_decision_time = t)
    (hcd : t2 - t <
      (get_optimal_trade_direction ta d p t).2.decision_cooldown) :
    (get_optimal_trade_direction ta2
      (get_optimal_trade_direction ta d p t).2 p2 t2).1.1 = "NEUTRAL" := by
  apply cooldown_returns_neutral
  rw [hset]
  exact hcd

/-- Witness for C1: on `taBullish` the trend-following branch returns LONG at
time 10 and stores the decision time, and the follow-up call at time 12
returns NEUTRAL (cooling down). -/
theorem c1_cooldown_witness :
    (get_optimal_trade_direction taBullish initDecision 1300 10).1.1
      ≠ "NEUTRAL" ∧
    ((get_optimal_trade_direction taBullish initDecision
      1300 10).2).last_decision_time = 10 ∧
    ((12 : ℚ) - 10 < ((get_optimal_trade_direction taBullish initDecision
      1300 10).2).decision_cooldown) ∧
    (get_optimal_trade_direction taBullish
      (get_optimal_trade_direction taBullish initDecision 1300 10).2
      1300 12).1.1 = "NEUTRAL" :=
  ⟨by decide, by decide, by decide,
    c1_cooldown_amended taBullish taBullish initDecision 1300 1300 10 12
      (by decide) (by decide) (by decide)⟩

/-- In every reachable risk-manager state the two per-symbol dicts are in
sync: a symbol is tracked in both or in neither, and the recorded entry
value never exceeds the recorded peak value. -/
theorem risk_entry_peak_sync (rm : RiskManager) (h : ReachableRisk rm) :
    ∀ sym, (dictGet rm.position_entry_value sym = none ∧
        dictGet rm.position_peak_value sym = none) ∨
      (∃ e pk, dictGet rm.position_entry_value sym = some e ∧
        dictGet rm.position_peak_value sym = some pk ∧ e ≤ pk) := by
  induction h with
  | init d0 maxdd warn force =>
    intro sym
    exact Or.inl ⟨rfl, rfl⟩
  | step rm sym p sz b rm' hr hs ih =>
    simp only [update_position_value] at hs
    by_cases hflat : |sz| < 1 / 10000
    · rw [if_pos hflat] at hs
      rw [Option.some.injEq, Prod.mk.injEq] at hs
      obtain ⟨hb, hX⟩ := hs
      subst hX
      intro sym2
      by_cases hsy : sym2 = sym
      · subst hsy
        exact Or.inl ⟨dictGet_del_self _ _, dictGet_del_self _ _⟩
      · have h1 := dictGet_del_other rm.position_entry_value sym sym2 hsy
        have h2 := dictGet_del_other rm.position_peak_value sym sym2 hsy
        simp only [h1, h2]
        exact ih sym2
    · rw [if_neg hflat] at hs
      cases hE : dictGet rm.position_entry_value sym with
      | none =>
        simp only [hE] at hs
        rw [Option.some.injEq, Prod.mk.injEq] at hs
        obtain ⟨hb, hX⟩ := hs
        subst hX
        intro sym2
        by_cases hsy : sym2 = sym
        · subst hsy
          exact Or.inr ⟨|sz * p|, |sz * p|,
            dictGet_set_self _ _ _, dictGet_set_self _ _ _, le_refl _⟩
        · have h1 := dictGet_set_other rm.position_entry_value sym sym2
            (|sz * p|) hsy
          have h2 := dictGet_set_other rm.position_peak_value sym sym2
            (|sz * p|) hsy
          simp only [h1, h2]
          exact ih sym2
      | some e0 =>
        cases hP : dictGet rm.position_peak_value sym with
        | none =>
          simp only [hE, hP] at hs
          exact Option.noConfusion hs
        | some pk0 =>
          simp only [hE, hP] at hs
          have hee : e0 ≤ pk0 := by
            rcases ih sym with ⟨hn, _⟩ | ⟨e1, pk1, he1, hp1, hle1⟩
            · rw [hE] at hn
              cases hn
            · rw [hE] at he1
              rw [hP] at hp1
              rw [Option.some.injEq] at he1 hp1
              rw [← he1, ← hp1] at hle1
              exact hle1
          by_cases hgt : |sz * p| > pk0
          case pos =>
            rw [if_pos hgt] at hs
            by_cases hz : |sz * p| = 0
            · rw [if_pos hz] at hs
              exact Option.noConfusion hs
            · rw [if_neg hz] at hs
              have hrm2 : rm' = { rm with
                  position_peak_value :=
                    dictSet rm.position_peak_value sym (|sz * p|) } := by
                split_ifs at hs <;>
                  (rw [Option.some.injEq, Prod.mk.injEq] at hs
                   exact hs.2.symm)
              subst hrm2
              intro sym2
              by_cases hsy : sym2 = sym
              · subst hsy
                exact Or.inr ⟨e0, |sz * p|, hE, dictGet_set_self _ _ _,
                  le_trans hee (le_of_lt hgt)⟩
              · have h2 := dictGet_set_other rm.position_peak_value sym sym2
                  (|sz * p|) hsy
                simp only [h2]
                exact ih sym2
          case neg =>
            rw [if_neg hgt] at hs
            by_cases hz : pk0 = 0
            · rw [if_pos hz] at hs
              exact Option.noConfusion hs
            · rw [if_neg hz] at hs
              have hrm2 : rm' = { rm with
                  position_peak_value :=
                    dictSet rm.position_peak_value sym pk0 } := by
                split_ifs at hs <;>
                  (rw [Option.some.injEq, Prod.mk.injEq] at hs
                   exact hs.2.symm)
              subst hrm2
              intro sym2
              by_cases hsy : sym2 = sym
              · subst hsy
                exact Or.inr ⟨e0, pk0, hE, dictGet_set_self _ _ _, hee⟩
              · have h2 := dictGet_set_other rm.position_peak_value sym sym2
                  pk0 hsy
                simp only [h2]
                exact ih sym2

/-- C2 counterexample: no reachable risk-manager state has a recorded peak
value strictly below the recorded entry value — refuting the claimed
existence of such a state. -/
theorem c2_no_peak_below_entry :
    ¬ ∃ rm : RiskManager, ReachableRisk rm ∧ ∃ sym e pk,
        dictGet rm.position_entry_value sym = some e ∧
        dictGet rm.position_peak_value sym = some pk ∧ pk < e := by
  rintro ⟨rm, hr, sym, e, pk, he, hp, hlt⟩
  rcases risk_entry_peak_sync rm hr sym with ⟨hn, _⟩ | ⟨e1, pk1, he1, hp1, hle⟩
  · rw [he] at hn
    cases hn
  · rw [he] at he1
    rw [hp] at hp1
    rw [Option.some.injEq] at he1 hp1
    rw [← he1, ← hp1] at hle
    exact absurd hlt (not_lt.mpr hle)

/-- C2 amended: in every state reachable by `update_position_value` calls the
invariant `entryValue ≤ peakValue` DOES hold for every tracked symbol (entry
and peak are initialized together to the first observed value and peak is
only ever raised), and a further update never lowers any symbol's recorded
peak while it stays tracked (it is only removed wholesale on reset). -/
theorem c2_peak_entry_invariant (rm : RiskManager) (h : ReachableRisk rm) :
    (∀ sym e, dictGet rm.position_entry_value sym = some e →
      ∃ pk, dictGet rm.position_peak_value sym = some pk ∧ e ≤ pk) ∧
    (∀ sym p sz b rm' sym2 pk pk',
      update_position_value rm sym p sz = some (b, rm') →
      dictGet rm.position_peak_value sym2 = some pk →
      dictGet rm'.position_peak_value sym2 = some pk' →
      pk ≤ pk') := by
  constructor
  · intro sym e he
    rcases risk_entry_peak_sync rm h sym with ⟨hn, _⟩ |
      ⟨e1, pk1, he1, hp1, hle⟩
    · rw [he] at hn
      cases hn
    · rw [he, Option.some.injEq] at he1
      rw [← he1] at hle
      exact ⟨pk1, hp1, hle⟩
  · intro sym p sz b rm' sym2 pk pk' hs hbef haft
    simp only [update_position_value] at hs
    by_cases hflat : |sz| < 1 / 10000
    · rw [if_pos hflat] at hs
      rw [Option.some.injEq, Prod.mk.injEq] at hs
      have hpe : rm'.position_peak_value =
          dictDel rm.position_peak_value sym := by rw [← hs.2]
      rw [hpe] at haft
      by_cases hsy : sym2 = sym
      · subst hsy
        rw [dictGet_del_self] at haft
        exact Option.noConfusion haft
      · rw [dictGet_del_other _ _ _ hsy] at haft
        rw [hbef, Option.some.injEq] at haft
        rw [haft]
    · rw [if_neg hflat] at hs
      cases hE : dictGet rm.position_entry_value sym with
      | none =>
        have hpn : dictGet rm.position_peak_value sym = none := by
          rcases risk_entry_peak_sync rm h sym with ⟨_, hn⟩ |
            ⟨e1, pk1, he1, _, _⟩
          · exact hn
          · rw [hE] at he1
            cases he1
        simp only [hE] at hs
        rw [Option.some.injEq, Prod.mk.injEq] at hs
        have hpe : rm'.position_peak_value =
            dictSet rm.position_peak_value sym (|sz * p|) := by rw [← hs.2]
        rw [hpe] at haft
        by_cases hsy : sym2 = sym
        · subst hsy
          rw [hpn] at hbef
          exact Option.noConfusion hbef
        · rw [dictGet_set_other _ _ _ _ hsy] at haft
          rw [hbef, Option.some.injEq] at haft
          rw [haft]
      | some e0 =>
        cases hP : dictGet rm.position_peak_value sym with
        | none =>
          simp only [hE, hP] at hs
          exact Option.noConfusion hs
        | some pk0 =>
          simp only [hE, hP] at hs
          by_cases hgt : |sz * p| > pk0
          case pos =>
            rw [if_pos hgt] at hs
            by_cases hz : |sz * p| = 0
            · rw [if_pos hz] at hs
              exact Option.noConfusion hs
            · rw [if_neg hz] at hs
              have hpe : rm'.position_peak_value =
                  dictSet rm.position_peak_value sym (|sz * p|) := by
                split_ifs at hs <;>
                  (rw [Option.some.injEq, Prod.mk.injEq] at hs
                   rw [← hs.2])
              rw [hpe] at haft
              by_cases hsy : sym2 = sym
              · subst hsy
                rw [hP, Option.some.injEq] at hbef
                rw [dictGet_set_self, Option.some.injEq] at haft
                rw [← hbef, ← haft]
                exact le_of_lt hgt
              · rw [dictGet_set_other _ _ _ _ hsy] at haft
                rw [hbef, Option.some.injEq] at haft
                rw [haft]
          case neg =>
            rw [if_neg hgt] at hs
            by_cases hz : pk0 = 0
            · rw [if_pos hz] at hs
              exact Option.noConfusion hs
            · rw [if_neg hz] at hs
              have hpe : rm'.position_peak_value =
                  dictSet rm.position_peak_value sym pk0 := by
                split_ifs at hs <;>
                  (rw [Option.some.injEq, Prod.mk.injEq] at hs
                   rw [← hs.2])
              rw [hpe] at haft
              by_cases hsy : sym2 = sym
              · subst hsy
                rw [hP, Option.some.injEq] at hbef
                rw [dictGet_set_self, Option.some.injEq] at haft
                rw [← hbef, ← haft]
              · rw [dictGet_set_other _ _ _ _ hsy] at haft
                rw [hbef, Option.some.injEq] at haft
                rw [haft]

/-- Witness for C2: after one opening update from a fresh manager, BTCUSDT is
tracked with entry 1000 and the invariant yields a peak of at least 1000. -/
theorem c2_peak_entry_witness :
    dictGet rmOpened.position_entry_value "BTCUSDT" = some 1000 ∧
    ∃ pk, dictGet rmOpened.position_peak_value "BTCUSDT" = some pk ∧
      (1000 : ℚ) ≤ pk :=
  ⟨by decide,
    (c2_peak_entry_invariant rmOpened
      (ReachableRisk.step (initRiskManager 0 (1 / 50) (2 / 125) true)
        "BTCUSDT" 10000 (1 / 10) true rmOpened
        (ReachableRisk.init 0 (1 / 50) (2 / 125) true)
        (by decide))).1 "BTCUSDT" 1000 (by decide)⟩

/-- A deque append is a drop of the extended list. -/
theorem dequeAppend_eq (cap : ℕ) (l : List ℚ) (x : ℚ) :
    dequeAppend cap l x = (l ++ [x]).drop (l.length + 1 - cap) := by
  simp only [dequeAppend, List.length_append, List.length_cons,
    List.length_nil]
  split_ifs with h
  · rfl
  · have h0 : l.length + 1 - cap = 0 := by omega
    rw [h0, List.drop_zero]

/-- A deque append never grows past the capacity. -/
theorem dequeAppend_length_le (cap : ℕ) (l : List ℚ) (x : ℚ)
    (h : l.length ≤ cap) : (dequeAppend cap l x).length ≤ cap := by
  rw [dequeAppend_eq, List.length_drop, List.length_append]
  simp only [List.length_cons, List.length_nil]
  omega

/-- Folding deque appends over a stream keeps exactly the trailing window. -/
theorem foldl_dequeAppend (cap : ℕ) (ys : List ℚ) :
    ∀ l : List ℚ, l.length ≤ cap →
      ys.foldl (dequeAppend cap) l =
        (l ++ ys).drop (l.length + ys.length - cap) := by
  induction ys with
  | nil =>
    intro l h
    simp [Nat.sub_eq_zero_of_le h]
  | cons y ys ih =>
    intro l h
    have hd : l.length + 1 - cap ≤ (l ++ [y]).length := by
      rw [List.length_append]
      simp only [List.length_cons, List.length_nil]
      omega
    rw [List.foldl_cons, ih _ (dequeAppend_length_le cap l y h),
      dequeAppend_eq, ← List.drop_append_of_le_length hd, List.drop_drop,
      List.append_assoc, List.singleton_append]
    congr 1
    rw [List.length_drop, List.length_append]
    simp only [List.length_cons, List.length_nil]
    omega

/-- The price history after a run of `add_price_data` calls is the fold of
deque appends of the prices (the three parallel deques evolve
independently). -/
theorem foldl_add_price_history (xs : List (ℚ × ℚ × ℚ)) :
    ∀ ta : TrendAnalyzer,
      (xs.foldl (fun a x => add_price_data a x.1 x.2.1 x.2.2)
          ta).price_history =
        (xs.map (fun x => x.1)).foldl (dequeAppend ta.window_size)
          ta.price_history := by
  induction xs with
  | nil => intro ta; rfl
  | cons x xs ih =>
    intro ta
    rw [List.foldl_cons, List.map_cons, List.foldl_cons,
      ih (add_price_data ta x.1 x.2.1 x.2.2)]
    rfl

/-- C5: for every sequence of samples fed to `add_price_data`, the price
window holds exactly the most recent prices in insertion order (the suffix of
the input stream), and its length never exceeds the configured capacity. -/
theorem c5_price_window (cap sma lma : ℕ) (xs : List (ℚ × ℚ × ℚ)) :
    (xs.foldl (fun a x => add_price_data a x.1 x.2.1 x.2.2)
        (initAnalyzer cap sma lma)).price_history =
      (xs.map (fun x => x.1)).drop (xs.length - cap) ∧
    (xs.foldl (fun a x => add_price_data a x.1 x.2.1 x.2.2)
        (initAnalyzer cap sma lma)).price_history.length ≤ cap := by
  have h1 := foldl_add_price_history xs (initAnalyzer cap sma lma)
  have h2 := foldl_dequeAppend cap (xs.map (fun x => x.1)) []
    (by simp)
  constructor
  · rw [h1]
    show (xs.map (fun x => x.1)).foldl (dequeAppend cap) [] = _
    rw [h2]
    simp [List.length_map]
  · rw [h1]
    show ((xs.map (fun x => x.1)).foldl (dequeAppend cap) []).length ≤ cap
    rw [h2, List.length_drop]
    simp only [List.nil_append, List.length_nil, List.length_map,
      Nat.zero_add]
    omega

/-- `lastN` keeps at most `n` elements. -/
theorem lastN_length (n : ℕ) (l : List ℚ) :
    (lastN n l).length = min n l.length := by
  simp only [lastN, List.length_drop]
  omega

/-- `diffs` produces one change per adjacent pair. -/
theorem diffs_length (l : List ℚ) : (diffs l).length = l.length - 1 := by
  induction l with
  | nil => rfl
  | cons a l ih =>
    cases l with
    | nil => rfl
    | cons b l2 =>
      simp only [diffs, List.length_cons] at ih ⊢
      omega

/-- The gain list of the RSI loop is pointwise non-negative. -/
theorem gains_sum_nonneg (l : List ℚ) :
    0 ≤ (l.map (fun c => if c > 0 then c else 0)).sum := by
  apply List.sum_nonneg
  intro x hx
  rcases List.mem_map.mp hx with ⟨c, _, hc⟩
  rw [← hc]
  split_ifs with h
  · exact le_of_lt h
  · exact le_refl 0

/-- The loss list of the RSI loop is pointwise non-negative. -/
theorem losses_sum_nonneg (l : List ℚ) :
    0 ≤ (l.map (fun c => if c > 0 then 0 else -c)).sum := by
  apply List.sum_nonneg
  intro x hx
  rcases List.mem_map.mp hx with ⟨c, _, hc⟩
  rw [← hc]
  split_ifs with h
  · exact le_refl 0
  · exact neg_nonneg.mpr (le_of_not_lt h)

/-- The closed RSI formula stays within `[0, 100]` for a non-negative
average gain and positive average loss. -/
theorem rsi_formula_bounds (ag al : ℚ) (hag : 0 ≤ ag) (hal : 0 < al) :
    0 ≤ 100 - 100 / (1 + ag / al) ∧ 100 - 100 / (1 + ag / al) ≤ 100 := by
  have hrs : 0 ≤ ag / al := div_nonneg hag (le_of_lt hal)
  have h2 : 100 / (1 + ag / al) ≤ 100 :=
    div_le_self (by norm_num) (by linarith)
  have h3 : (0 : ℚ) < 100 / (1 + ag / al) :=
    div_pos (by norm_num) (by linarith)
  constructor <;> linarith

/-- C4: `calculate_rsi` always lies in `[0, 100]`; it is exactly 50 whenever
fewer than `period + 1` samples exist, and exactly 100 whenever enough
samples exist and the average loss over the trailing `period + 1` samples is
zero. -/
theorem c4_rsi_spec (prices : List ℚ) (period : ℕ) (hper : 0 < period) :
    (0 ≤ calculate_rsi prices period ∧ calculate_rsi prices period ≤ 100) ∧
    (prices.length < period + 1 → calculate_rsi prices period = 50) ∧
    (period + 1 ≤ prices.length →
      ((diffs (lastN (period + 1) prices)).map
            (fun c => if c > 0 then 0 else -c)).sum /
          ((((diffs (lastN (period + 1) prices)).map
            (fun c => if c > 0 then 0 else -c)).length : ℕ) : ℚ) = 0 →
      calculate_rsi prices period = 100) := by
  refine ⟨?_, ?_, ?_⟩
  · simp only [calculate_rsi]
    split_ifs with h1 h2 h3
    · norm_num
    · norm_num
    · norm_num
    · have hal0 : 0 ≤ ((diffs (lastN (period + 1) prices)).map
          (fun c => if c > 0 then 0 else -c)).sum /
            ((((diffs (lastN (period + 1) prices)).map
              (fun c => if c > 0 then 0 else -c)).length : ℕ) : ℚ) :=
        div_nonneg (losses_sum_nonneg _) (Nat.cast_nonneg _)
      exact rsi_formula_bounds _ _
        (div_nonneg (gains_sum_nonneg _) (Nat.cast_nonneg _))
        (lt_of_le_of_ne hal0 (Ne.symm h3))
  · intro hlen
    simp only [calculate_rsi]
    rw [if_pos hlen]
  · intro hlen hzero
    simp only [calculate_rsi]
    rw [if_neg (not_lt.mpr hlen)]
    have hglen : ((diffs (lastN (period + 1) prices)).map
        (fun c => if c > 0 then c else 0)) ≠ [] := by
      apply List.ne_nil_of_length_pos
      rw [List.length_map, diffs_length, lastN_length]
      omega
    have hllen : ((diffs (lastN (period + 1) prices)).map
        (fun c => if c > 0 then 0 else -c)) ≠ [] := by
      apply List.ne_nil_of_length_pos
      rw [List.length_map, diffs_length, lastN_length]
      omega
    rw [if_neg (not_or.mpr ⟨hglen, hllen⟩), if_pos hzero]

/-- Witness for C4: RSI(14) over 15 strictly increasing samples has zero
average loss and evaluates to exactly 100. -/
theorem c4_rsi_witness :
    (0 < 14) ∧
    ((14 : ℕ) + 1 ≤
      ([1, 2, 3, 4, 5, 6, 7, 8, 9, 10, 11, 12, 13, 14, 15] :
        List ℚ).length) ∧
    ((diffs (lastN (14 + 1)
        ([1, 2, 3, 4, 5, 6, 7, 8, 9, 10, 11, 12, 13, 14, 15] :
          List ℚ))).map (fun c => if c > 0 then 0 else -c)).sum /
      ((((diffs (lastN (14 + 1)
        ([1, 2, 3, 4, 5, 6, 7, 8, 9, 10, 11, 12, 13, 14, 15] :
          List ℚ))).map (fun c => if c > 0 then 0 else -c)).length : ℕ) : ℚ)
      = 0 ∧
    calculate_rsi
      ([1, 2, 3, 4, 5, 6, 7, 8, 9, 10, 11, 12, 13, 14, 15] : List ℚ) 14
      = 100 :=
  ⟨by decide, by decide, by decide,
    (c4_rsi_spec
      ([1, 2, 3, 4, 5, 6, 7, 8, 9, 10, 11, 12, 13, 14, 15] : List ℚ) 14
      (by decide)).2.2 (by decide) (by decide)⟩

/-- `stepReturns` produces one return per adjacent pair. -/
theorem stepReturns_length (l : List ℚ) :
    (stepReturns l).length = l.length - 1 := by
  induction l with
  | nil => rfl
  | cons a l ih =>
    cases l with
    | nil => rfl
    | cons b l2 =>
      simp only [stepReturns, List.length_cons] at ih ⊢
      omega

/-- C6 counterexample: `calculate_volatility` is not the sample (Bessel,
`n - 1`) standard deviation of the returns over the last `min(10, n)`
samples: with three samples it returns 0 although the sample deviation of
the two returns is positive, and with five samples `[1, 2, 1, 2, 1]` it
returns `3/4` (dividing by the four returns) while the sample standard
deviation is `√(3/4)`. -/
theorem c6_not_sample_stddev :
    calculate_volatility ([100, 110, 100] : List ℚ) ≠
      sampleStdDev (stepReturns (lastN 10 ([100, 110, 100] : List ℚ))) ∧
    calculate_volatility ([1, 2, 1, 2, 1] : List ℚ) ≠
      sampleStdDev (stepReturns (lastN 10 ([1, 2, 1, 2, 1] : List ℚ))) := by
  constructor
  · have h1 : volatilityVariance ([100, 110, 100] : List ℚ) = 0 := by decide
    have h2 : (0 : ℚ) <
        sampleVariance (stepReturns (lastN 10 ([100, 110, 100] : List ℚ)))
      := by decide
    unfold calculate_volatility sampleStdDev
    rw [h1, Rat.cast_zero, Real.sqrt_zero]
    exact ne_of_lt (Real.sqrt_pos.mpr (by exact_mod_cast h2))
  · have h1 : volatilityVariance ([1, 2, 1, 2, 1] : List ℚ) = 9 / 16 := by
      decide
    have h2 : sampleVariance (stepReturns
        (lastN 10 ([1, 2, 1, 2, 1] : List ℚ))) = 3 / 4 := by decide
    unfold calculate_volatility sampleStdDev
    rw [h1, h2]
    apply ne_of_lt
    apply Real.sqrt_lt_sqrt
    · exact_mod_cast (by norm_num : (0 : ℚ) ≤ 9 / 16)
    · exact_mod_cast (by norm_num : (9 / 16 : ℚ) < 3 / 4)

/-- C6 amended: for histories of at least 5 samples, `calculate_volatility`
is the population standard deviation (dividing by the number of returns) of
the step returns over the last `min(10, n)` samples; for shorter histories
it is 0. -/
theorem c6_volatility_population (prices : List ℚ) :
    (5 ≤ prices.length →
      calculate_volatility prices =
        popStdDev (stepReturns (lastN 10 prices))) ∧
    (prices.length < 5 → calculate_volatility prices = 0) := by
  constructor
  · intro h
    have hlen0 : ¬ (stepReturns (lastN 10 prices)).length = 0 := by
      rw [stepReturns_length, lastN_length]
      omega
    have hq : volatilityVariance prices =
        popVariance (stepReturns (lastN 10 prices)) := by
      unfold volatilityVariance popVariance listMean
      rw [if_neg (not_lt.mpr h), if_neg hlen0]
    unfold calculate_volatility popStdDev
    rw [hq]
  · intro h
    have hq : volatilityVariance prices = 0 := by
      unfold volatilityVariance
      rw [if_pos h]
    unfold calculate_volatility
    rw [hq, Rat.cast_zero, Real.sqrt_zero]

/-- Witness for C6: both branches of the amended statement at concrete
histories. -/
theorem c6_volatility_witness :
    (5 ≤ ([1, 2, 1, 2, 1] : List ℚ).length) ∧
    calculate_volatility ([1, 2, 1, 2, 1] : List ℚ) =
      popStdDev (stepReturns (lastN 10 ([1, 2, 1, 2, 1] : List ℚ))) ∧
    (([100, 110, 100] : List ℚ).length < 5) ∧
    calculate_volatility ([100, 110, 100] : List ℚ) = 0 :=
  ⟨by decide, (c6_volatility_population _).1 (by decide), by decide,
    (c6_volatility_population _).2 (by decide)⟩
